import Mathlib

/-!
Verification of the `icedcube` 2×2×2 pocket-cube model and its rendering
geometry.  The definitions below are a shallow embedding of the Rust sources:

* `src/cube/mod.rs`       — sticker model and the six face-turn permutations
* `src/app/support.rs`    — angle normalization `set_deg`, `apply_token`,
                            `apply_alg`
* `src/render/geom.rs`    — rotations about the cube center, isometric
                            projection, visibility and depth keys
* `src/render/canvas.rs`  — depth-sorted draw order
* `src/render/layout.rs`  — vertical fitting of the two views

Machine floats (`f32`) are modelled as exact rationals (for the purely
arithmetic `set_deg`) and as real numbers (for the trigonometric geometry).
-/

namespace IcedCube

/-- `Col` from `src/cube/mod.rs`: the six sticker colors W, Y, G, B, O, R. -/
inductive Col where
  | W | Y | G | B | O | R
  deriving DecidableEq, Repr

/-- A 2×2 face `[[r0c0, r0c1], [r1c0, r1c1]]` of stickers
(`type Face = [[Col; 2]; 2]` in `src/cube/mod.rs`), row 0 = top, col 0 = left. -/
structure Face where
  r0c0 : Col
  r0c1 : Col
  r1c0 : Col
  r1c1 : Col
  deriving DecidableEq, Repr

/-- The cube: six faces in the order U, D, F, B, L, R
(`struct Cube { faces: [Face; 6] }`). -/
structure Cube where
  u : Face
  d : Face
  f : Face
  b : Face
  l : Face
  r : Face
  deriving DecidableEq, Repr

/-- `Cube::default`: U=White, D=Yellow, F=Green, B=Blue, L=Orange, R=Red. -/
def cubeDefault : Cube :=
  { u := ⟨Col.W, Col.W, Col.W, Col.W⟩
  , d := ⟨Col.Y, Col.Y, Col.Y, Col.Y⟩
  , f := ⟨Col.G, Col.G, Col.G, Col.G⟩
  , b := ⟨Col.B, Col.B, Col.B, Col.B⟩
  , l := ⟨Col.O, Col.O, Col.O, Col.O⟩
  , r := ⟨Col.R, Col.R, Col.R, Col.R⟩ }

/-- `rot_face_cw`: `[[a,b],[c,d]] → [[c,a],[d,b]]`. -/
def rot_face_cw (x : Face) : Face :=
  ⟨x.r1c0, x.r0c0, x.r1c1, x.r0c1⟩

/-- `Cube::u_cw`: rotate U clockwise, cycle the top rows F → R → B → L → F.
Strips are snapshotted before being overwritten; here every right-hand side
reads from the pre-move cube `x`, which models exactly that. -/
def u_cw (x : Cube) : Cube :=
  { x with
    u := rot_face_cw x.u
    r := ⟨x.f.r0c0, x.f.r0c1, x.r.r1c0, x.r.r1c1⟩
    b := ⟨x.r.r0c0, x.r.r0c1, x.b.r1c0, x.b.r1c1⟩
    l := ⟨x.b.r0c0, x.b.r0c1, x.l.r1c0, x.l.r1c1⟩
    f := ⟨x.l.r0c0, x.l.r0c1, x.f.r1c0, x.f.r1c1⟩ }

/-- `Cube::d_cw`: rotate D clockwise, cycle the bottom rows
F → L → B → R → F. -/
def d_cw (x : Cube) : Cube :=
  { x with
    d := rot_face_cw x.d
    l := ⟨x.l.r0c0, x.l.r0c1, x.f.r1c0, x.f.r1c1⟩
    b := ⟨x.b.r0c0, x.b.r0c1, x.l.r1c0, x.l.r1c1⟩
    r := ⟨x.r.r0c0, x.r.r0c1, x.b.r1c0, x.b.r1c1⟩
    f := ⟨x.f.r0c0, x.f.r0c1, x.r.r1c0, x.r.r1c1⟩ }

/-- `Cube::r_cw`: rotate R clockwise; U right → F right, F right → D right,
D right → B left (reversed), B left → U right (reversed). -/
def r_cw (x : Cube) : Cube :=
  { x with
    r := rot_face_cw x.r
    f := ⟨x.f.r0c0, x.u.r0c1, x.f.r1c0, x.u.r1c1⟩
    d := ⟨x.d.r0c0, x.f.r0c1, x.d.r1c0, x.f.r1c1⟩
    b := ⟨x.d.r1c1, x.b.r0c1, x.d.r0c1, x.b.r1c1⟩
    u := ⟨x.u.r0c0, x.b.r1c0, x.u.r1c0, x.b.r0c0⟩ }

/-- `Cube::l_cw`: rotate L clockwise; U left → B right (reversed),
B right → D left (reversed), D left → F left, F left → U left. -/
def l_cw (x : Cube) : Cube :=
  { x with
    l := rot_face_cw x.l
    b := ⟨x.b.r0c0, x.u.r1c0, x.b.r1c0, x.u.r0c0⟩
    d := ⟨x.b.r1c1, x.d.r0c1, x.b.r0c1, x.d.r1c1⟩
    f := ⟨x.d.r0c0, x.f.r0c1, x.d.r1c0, x.f.r1c1⟩
    u := ⟨x.f.r0c0, x.u.r0c1, x.f.r1c0, x.u.r1c1⟩ }

/-- `Cube::f_cw`: rotate F clockwise; U bottom → R left (reversed),
R left → D top, D top → L right (reversed), L right → U bottom. -/
def f_cw (x : Cube) : Cube :=
  { x with
    f := rot_face_cw x.f
    r := ⟨x.u.r1c1, x.r.r0c1, x.u.r1c0, x.r.r1c1⟩
    d := ⟨x.r.r0c0, x.r.r1c0, x.d.r1c0, x.d.r1c1⟩
    l := ⟨x.l.r0c0, x.d.r0c1, x.l.r1c0, x.d.r0c0⟩
    u := ⟨x.u.r0c0, x.u.r0c1, x.l.r0c1, x.l.r1c1⟩ }

/-- `Cube::b_cw`: rotate B clockwise; U top → L left (reversed),
L left → D bottom, D bottom → R right (reversed), R right → U top. -/
def b_cw (x : Cube) : Cube :=
  { x with
    b := rot_face_cw x.b
    l := ⟨x.u.r0c1, x.l.r0c1, x.u.r0c0, x.l.r1c1⟩
    d := ⟨x.d.r0c0, x.d.r0c1, x.l.r0c0, x.l.r1c0⟩
    r := ⟨x.r.r0c0, x.d.r1c1, x.r.r1c0, x.d.r1c0⟩
    u := ⟨x.r.r0c1, x.r.r1c1, x.u.r1c0, x.u.r1c1⟩ }

/-- `u_ccw`: clockwise applied three times (as in `src/cube/mod.rs`). -/
def u_ccw (x : Cube) : Cube := u_cw (u_cw (u_cw x))

/-- `u_180`: clockwise applied twice. -/
def u_180 (x : Cube) : Cube := u_cw (u_cw x)

/-- `d_ccw`. -/
def d_ccw (x : Cube) : Cube := d_cw (d_cw (d_cw x))

/-- `d_180`. -/
def d_180 (x : Cube) : Cube := d_cw (d_cw x)

/-- `r_ccw`. -/
def r_ccw (x : Cube) : Cube := r_cw (r_cw (r_cw x))

/-- `r_180`. -/
def r_180 (x : Cube) : Cube := r_cw (r_cw x)

/-- `l_ccw`. -/
def l_ccw (x : Cube) : Cube := l_cw (l_cw (l_cw x))

/-- `l_180`. -/
def l_180 (x : Cube) : Cube := l_cw (l_cw x)

/-- `f_ccw`. -/
def f_ccw (x : Cube) : Cube := f_cw (f_cw (f_cw x))

/-- `f_180`. -/
def f_180 (x : Cube) : Cube := f_cw (f_cw x)

/-- `b_ccw`. -/
def b_ccw (x : Cube) : Cube := b_cw (b_cw (b_cw x))

/-- `b_180`. -/
def b_180 (x : Cube) : Cube := b_cw (b_cw x)

/-- `apply_token` from `src/app/support.rs`: dispatch one move token, or fail
with `"Unknown move: <tok>"`. -/
def apply_token (c : Cube) (tok : String) : Except String Cube :=
  if tok = "U" then .ok (u_cw c)
  else if tok = "U'" then .ok (u_ccw c)
  else if tok = "U2" then .ok (u_180 c)
  else if tok = "D" then .ok (d_cw c)
  else if tok = "D'" then .ok (d_ccw c)
  else if tok = "D2" then .ok (d_180 c)
  else if tok = "R" then .ok (r_cw c)
  else if tok = "R'" then .ok (r_ccw c)
  else if tok = "R2" then .ok (r_180 c)
  else if tok = "L" then .ok (l_cw c)
  else if tok = "L'" then .ok (l_ccw c)
  else if tok = "L2" then .ok (l_180 c)
  else if tok = "F" then .ok (f_cw c)
  else if tok = "F'" then .ok (f_ccw c)
  else if tok = "F2" then .ok (f_180 c)
  else if tok = "B" then .ok (b_cw c)
  else if tok = "B'" then .ok (b_ccw c)
  else if tok = "B2" then .ok (b_180 c)
  else .error ("Unknown move: " ++ tok)

/-- Tokenizer for `str::split_whitespace`: maximal nonempty runs of
non-whitespace characters, in order.  `cur` holds the current token, reversed. -/
def wsTokensAux (cur : List Char) : List Char → List String
  | [] => if cur = [] then [] else [String.mk cur.reverse]
  | ch :: rest =>
    if ch.isWhitespace then
      if cur = [] then wsTokensAux [] rest
      else String.mk cur.reverse :: wsTokensAux [] rest
    else wsTokensAux (ch :: cur) rest

/-- `alg.split_whitespace()` as used by `apply_alg`. -/
def split_whitespace (s : String) : List String := wsTokensAux [] s.toList

/-- `apply_alg`'s loop: fold `apply_token` over the token list, stopping at the
first failure.  The result pairs the cube after the applied prefix (the Rust
function mutates in place, so already-applied tokens stay applied) with the
error, if any. -/
def apply_alg_go : Cube → List String → Cube × Option String
  | c, [] => (c, none)
  | c, t :: ts =>
    match apply_token c t with
    | .ok c2 => apply_alg_go c2 ts
    | .error e => (c, some e)

/-- `apply_alg` from `src/app/support.rs`. -/
def apply_alg (c : Cube) (alg : String) : Cube × Option String :=
  apply_alg_go c (split_whitespace alg)

/-- The 18-token move alphabet of §3 of the spec. -/
def tokenAlphabet : List String :=
  [ "U", "U'", "U2", "D", "D'", "D2", "R", "R'", "R2"
  , "L", "L'", "L2", "F", "F'", "F2", "B", "B'", "B2" ]

def validToken (t : String) : Bool := t ∈ tokenAlphabet

/-- One step of the successful path of `apply_alg_go`. -/
def tokenStep (c : Cube) (t : String) : Cube :=
  match apply_token c t with
  | .ok c2 => c2
  | .error _ => c

/-- Index of the first invalid token (= `ts.length` when all are valid). -/
def firstBad (ts : List String) : Nat := ts.findIdx (fun t => !(validToken t))

def stickers (c : Cube) : List Col :=
  [ c.u.r0c0, c.u.r0c1, c.u.r1c0, c.u.r1c1
  , c.d.r0c0, c.d.r0c1, c.d.r1c0, c.d.r1c1
  , c.f.r0c0, c.f.r0c1, c.f.r1c0, c.f.r1c1
  , c.b.r0c0, c.b.r0c1, c.b.r1c0, c.b.r1c1
  , c.l.r0c0, c.l.r0c1, c.l.r1c0, c.l.r1c1
  , c.r.r0c0, c.r.r0c1, c.r.r1c0, c.r.r1c1 ]

def countCol (c : Cube) (x : Col) : Nat := (stickers c).count x

/-- One donor→recipient boundary-strip transfer of a quarter turn: how to read
the donor strip from the pre-move cube, how to read the recipient strip from
the post-move cube (both in the snapshot order used by `src/cube/mod.rs`),
and whether the code copies it reversed. -/
structure XferSpec where
  donor : Cube → Col × Col
  recip : Cube → Col × Col
  rev : Bool

/-- A transfer behaves as specified: the recipient strip after the move is the
donor strip before the move, reversed exactly when `rev` is set. -/
def XferOk (mv : Cube → Cube) (t : XferSpec) : Prop :=
  ∀ c : Cube, t.recip (mv c) = if t.rev then Prod.swap (t.donor c) else t.donor c

/-- The four transfers of `u_cw`: top rows F → R → B → L → F. -/
def uXfers : List XferSpec :=
  [ ⟨fun c => (c.f.r0c0, c.f.r0c1), fun c => (c.r.r0c0, c.r.r0c1), false⟩
  , ⟨fun c => (c.r.r0c0, c.r.r0c1), fun c => (c.b.r0c0, c.b.r0c1), false⟩
  , ⟨fun c => (c.b.r0c0, c.b.r0c1), fun c => (c.l.r0c0, c.l.r0c1), false⟩
  , ⟨fun c => (c.l.r0c0, c.l.r0c1), fun c => (c.f.r0c0, c.f.r0c1), false⟩ ]

/-- The four transfers of `d_cw`: bottom rows F → L → B → R → F. -/
def dXfers : List XferSpec :=
  [ ⟨fun c => (c.f.r1c0, c.f.r1c1), fun c => (c.l.r1c0, c.l.r1c1), false⟩
  , ⟨fun c => (c.l.r1c0, c.l.r1c1), fun c => (c.b.r1c0, c.b.r1c1), false⟩
  , ⟨fun c => (c.b.r1c0, c.b.r1c1), fun c => (c.r.r1c0, c.r.r1c1), false⟩
  , ⟨fun c => (c.r.r1c0, c.r.r1c1), fun c => (c.f.r1c0, c.f.r1c1), false⟩ ]

/-- The four transfers of `r_cw` (columns read top to bottom):
U right → F right, F right → D right, D right → B left (reversed),
B left → U right (reversed). -/
def rXfers : List XferSpec :=
  [ ⟨fun c => (c.u.r0c1, c.u.r1c1), fun c => (c.f.r0c1, c.f.r1c1), false⟩
  , ⟨fun c => (c.f.r0c1, c.f.r1c1), fun c => (c.d.r0c1, c.d.r1c1), false⟩
  , ⟨fun c => (c.d.r0c1, c.d.r1c1), fun c => (c.b.r0c0, c.b.r1c0), true⟩
  , ⟨fun c => (c.b.r0c0, c.b.r1c0), fun c => (c.u.r0c1, c.u.r1c1), true⟩ ]

/-- The four transfers of `l_cw`: U left → B right (reversed),
B right → D left (reversed), D left → F left, F left → U left. -/
def lXfers : List XferSpec :=
  [ ⟨fun c => (c.u.r0c0, c.u.r1c0), fun c => (c.b.r0c1, c.b.r1c1), true⟩
  , ⟨fun c => (c.b.r0c1, c.b.r1c1), fun c => (c.d.r0c0, c.d.r1c0), true⟩
  , ⟨fun c => (c.d.r0c0, c.d.r1c0), fun c => (c.f.r0c0, c.f.r1c0), false⟩
  , ⟨fun c => (c.f.r0c0, c.f.r1c0), fun c => (c.u.r0c0, c.u.r1c0), false⟩ ]

/-- The four transfers of `f_cw`: U bottom → R left (reversed),
R left → D top, D top → L right (reversed), L right → U bottom. -/
def fXfers : List XferSpec :=
  [ ⟨fun c => (c.u.r1c0, c.u.r1c1), fun c => (c.r.r0c0, c.r.r1c0), true⟩
  , ⟨fun c => (c.r.r0c0, c.r.r1c0), fun c => (c.d.r0c0, c.d.r0c1), false⟩
  , ⟨fun c => (c.d.r0c0, c.d.r0c1), fun c => (c.l.r0c1, c.l.r1c1), true⟩
  , ⟨fun c => (c.l.r0c1, c.l.r1c1), fun c => (c.u.r1c0, c.u.r1c1), false⟩ ]

/-- The four transfers of `b_cw`: U top → L left (reversed),
L left → D bottom, D bottom → R right (reversed), R right → U top. -/
def bXfers : List XferSpec :=
  [ ⟨fun c => (c.u.r0c0, c.u.r0c1), fun c => (c.l.r0c0, c.l.r1c0), true⟩
  , ⟨fun c => (c.l.r0c0, c.l.r1c0), fun c => (c.d.r1c0, c.d.r1c1), false⟩
  , ⟨fun c => (c.d.r1c0, c.d.r1c1), fun c => (c.r.r0c1, c.r.r1c1), true⟩
  , ⟨fun c => (c.r.r0c1, c.r.r1c1), fun c => (c.u.r0c0, c.u.r0c1), false⟩ ]

/-- A cube whose boundary strips all hold two distinct colors, to make strip
reversal observable. -/
def probeCube : Cube :=
  { u := ⟨Col.W, Col.G, Col.B, Col.O⟩
  , d := ⟨Col.Y, Col.G, Col.B, Col.O⟩
  , f := ⟨Col.G, Col.W, Col.Y, Col.B⟩
  , b := ⟨Col.B, Col.W, Col.Y, Col.G⟩
  , l := ⟨Col.O, Col.W, Col.Y, Col.G⟩
  , r := ⟨Col.R, Col.W, Col.Y, Col.G⟩ }

/-- Truncation toward zero, as Rust's float `%` uses. -/
def ratTrunc (x : ℚ) : ℤ := if 0 ≤ x then ⌊x⌋ else ⌈x⌉

/-- Rust's float remainder `v % m` (same sign as the dividend):
`v - m * trunc(v / m)`. -/
def fRem (v m : ℚ) : ℚ := v - m * ratTrunc (v / m)

/-- `f32::round`: round half away from zero. -/
def roundHalfAway (x : ℚ) : ℤ := if 0 ≤ x then ⌊x + 1/2⌋ else ⌈x - 1/2⌉

/-- `set_deg` from `src/app/support.rs`, with `f32` modelled as exact
rationals: optionally snap to the nearest multiple of 90, then push into
`[0, 360)` by one conditional `+ 360`. -/
def set_deg (v : ℚ) (snap90 : Bool) : ℚ :=
  let d : ℚ :=
    if snap90 then
      let r : ℚ := (roundHalfAway (v / 90) : ℤ) * 90
      if r < 0 then r + 360 else fRem r 360
    else fRem v 360
  if d < 0 then d + 360 else d

/-- `FaceId` from `src/cube/mod.rs`, in its enumeration order. -/
inductive FaceId where
  | U | D | F | B | L | R
  deriving DecidableEq, Repr

/-- `FaceId as usize`: the enumeration index. -/
def enumIdx : FaceId → Nat
  | .U => 0 | .D => 1 | .F => 2 | .B => 3 | .L => 4 | .R => 5

noncomputable section

/-- `deg.to_radians()`. -/
def rad (deg : ℝ) : ℝ := deg * (Real.pi / 180)

/-- `project` from `src/render/geom.rs`: isometric basis
`ex = (0.8660254, −0.5)`, `ey = (−0.8660254, −0.5)`, `ez = (0, −1)`. -/
def project (p : ℝ × ℝ × ℝ) (size : ℝ) (origin : ℝ × ℝ) : ℝ × ℝ :=
  (origin.1 + size * (p.1 * 0.8660254 + p.2.1 * (-0.8660254) + p.2.2 * 0),
   origin.2 + size * (p.1 * (-0.5) + p.2.1 * (-0.5) + p.2.2 * (-1)))

/-- `rot_z_point`: Z-rotation about the cube center `(1,1,1)`. -/
def rot_z_point (p : ℝ × ℝ × ℝ) (deg : ℝ) : ℝ × ℝ × ℝ :=
  let x0 := p.1 - 1; let y0 := p.2.1 - 1; let z0 := p.2.2 - 1
  let c := Real.cos (rad deg); let s := Real.sin (rad deg)
  (c * x0 - s * y0 + 1, s * x0 + c * y0 + 1, z0 + 1)

/-- `rot_y_point`: Y-rotation about the cube center. -/
def rot_y_point (p : ℝ × ℝ × ℝ) (deg : ℝ) : ℝ × ℝ × ℝ :=
  let x0 := p.1 - 1; let y0 := p.2.1 - 1; let z0 := p.2.2 - 1
  let c := Real.cos (rad deg); let s := Real.sin (rad deg)
  (c * x0 + s * z0 + 1, y0 + 1, -s * x0 + c * z0 + 1)

/-- `rot_x_point`: X-rotation about the cube center. -/
def rot_x_point (p : ℝ × ℝ × ℝ) (deg : ℝ) : ℝ × ℝ × ℝ :=
  let x0 := p.1 - 1; let y0 := p.2.1 - 1; let z0 := p.2.2 - 1
  let c := Real.cos (rad deg); let s := Real.sin (rad deg)
  (x0 + 1, c * y0 - s * z0 + 1, s * y0 + c * z0 + 1)

/-- `rotate_pt_all`: Z, then Y, then X rotation. -/
def rotate_pt_all (p : ℝ × ℝ × ℝ) (rz ry rx : ℝ) : ℝ × ℝ × ℝ :=
  rot_x_point (rot_y_point (rot_z_point p rz) ry) rx

/-- `face_outer`: the four outer corners of each face, CCW w.r.t. the outward
normal, from `src/render/geom.rs`. -/
def face_outer : FaceId → (ℝ×ℝ×ℝ) × (ℝ×ℝ×ℝ) × (ℝ×ℝ×ℝ) × (ℝ×ℝ×ℝ)
  | .U => ((0,0,2),(2,0,2),(2,2,2),(0,2,2))
  | .D => ((0,2,0),(2,2,0),(2,0,0),(0,0,0))
  | .F => ((0,0,0),(2,0,0),(2,0,2),(0,0,2))
  | .B => ((2,2,0),(0,2,0),(0,2,2),(2,2,2))
  | .L => ((0,0,2),(0,2,2),(0,2,0),(0,0,0))
  | .R => ((2,0,0),(2,2,0),(2,2,2),(2,0,2))

/-- The signed-area accumulator of `face_visible`:
`Σ (x_i * y_{i+1} − x_{i+1} * y_i)` over the four edges. -/
def quadSignedArea (p0 p1 p2 p3 : ℝ × ℝ) : ℝ :=
  (p0.1 * p1.2 - p1.1 * p0.2) + (p1.1 * p2.2 - p2.1 * p1.2) +
  (p2.1 * p3.2 - p3.1 * p2.2) + (p3.1 * p0.2 - p0.1 * p3.2)

/-- The projected signed area of a face's outer quad at a given scale and
origin (the code always uses scale 1 and origin `(0,0)` for visibility). -/
def face_outer_area (f : FaceId) (rz rx ry size : ℝ) (origin : ℝ × ℝ) : ℝ :=
  let q := face_outer f
  let pr := fun p => project (rotate_pt_all p rz ry rx) size origin
  quadSignedArea (pr q.1) (pr q.2.1) (pr q.2.2.1) (pr q.2.2.2)

/-- `face_visible` from `src/render/geom.rs`: projected signed area at unit
scale and zero origin is negative. -/
def face_visible (f : FaceId) (rz rx ry : ℝ) : Prop :=
  face_outer_area f rz rx ry 1 (0, 0) < 0

/-- The per-face geometric centers of `face_depth`. -/
def face_center : FaceId → ℝ × ℝ × ℝ
  | .U => (1,1,2)
  | .D => (1,1,0)
  | .F => (1,0,1)
  | .B => (1,2,1)
  | .L => (0,1,1)
  | .R => (2,1,1)

/-- `face_depth`: negated projected Y of the rotated face center, at unit
scale and zero origin. -/
def face_depth (f : FaceId) (rz rx ry : ℝ) : ℝ :=
  -(project (rotate_pt_all (face_center f) rz ry rx) 1 (0, 0)).2

/-- The draw order of `CubeCanvas::draw`: the array `[U, R, F, D, L, B]`
sorted by `face_depth` with a stable sort (Rust's `sort_by` is stable;
`List.insertionSort` is the stable sort on lists). -/
def draw_order (rz rx ry : ℝ) : List FaceId :=
  List.insertionSort (fun a b => face_depth a rz rx ry ≤ face_depth b rz rx ry)
    [FaceId.U, FaceId.R, FaceId.F, FaceId.D, FaceId.L, FaceId.B]

/-- Modelled from the spec's words for §4.2: a standard right-handed Z-axis
rotation about the origin. -/
def spec_rot_z (q : ℝ × ℝ × ℝ) (deg : ℝ) : ℝ × ℝ × ℝ :=
  (Real.cos (rad deg) * q.1 - Real.sin (rad deg) * q.2.1,
   Real.sin (rad deg) * q.1 + Real.cos (rad deg) * q.2.1,
   q.2.2)

/-- Standard right-handed Y-axis rotation about the origin. -/
def spec_rot_y (q : ℝ × ℝ × ℝ) (deg : ℝ) : ℝ × ℝ × ℝ :=
  (Real.cos (rad deg) * q.1 + Real.sin (rad deg) * q.2.2,
   q.2.1,
   -Real.sin (rad deg) * q.1 + Real.cos (rad deg) * q.2.2)

/-- Standard right-handed X-axis rotation about the origin. -/
def spec_rot_x (q : ℝ × ℝ × ℝ) (deg : ℝ) : ℝ × ℝ × ℝ :=
  (q.1,
   Real.cos (rad deg) * q.2.1 - Real.sin (rad deg) * q.2.2,
   Real.sin (rad deg) * q.2.1 + Real.cos (rad deg) * q.2.2)

/-- Modelled from the spec's words for §4.2: translate by the negated cube
center `(1,1,1)`, rotate about Z, then Y, then X (all about the origin),
translate back. -/
def spec_rotate (p : ℝ × ℝ × ℝ) (rz ry rx : ℝ) : ℝ × ℝ × ℝ :=
  let q0 := (p.1 - 1, p.2.1 - 1, p.2.2 - 1)
  let q3 := spec_rot_x (spec_rot_y (spec_rot_z q0 rz) ry) rx
  (q3.1 + 1, q3.2.1 + 1, q3.2.2 + 1)

/-- `ViewParams` from `src/render/types.rs` (origin unsplit; the NaN
"auto-place" sentinel is handled by the caller and not modelled). -/
structure ViewParams where
  rz : ℝ
  rx : ℝ
  ry : ℝ
  origin : ℝ × ℝ
  size : ℝ

/-- An `iced::Rectangle`. -/
structure Rect where
  x : ℝ
  y : ℝ
  width : ℝ
  height : ℝ

/-- `cube_corners` from `src/render/layout.rs`: the 8 corners of the 2×2×2
cube in object space. -/
def cube_corners : List (ℝ × ℝ × ℝ) :=
  [(0,0,0), (2,0,0), (0,2,0), (2,2,0), (0,0,2), (2,0,2), (0,2,2), (2,2,2)]

/-- `min_projected_y`: fold of `f32::min` (seeded with `+∞`, hence the
minimum of the 8 projected Y values; the list is never empty). -/
def min_projected_y (vp : ViewParams) : ℝ :=
  match cube_corners.map
      (fun p => (project (rotate_pt_all p vp.rz vp.ry vp.rx) vp.size vp.origin).2) with
  | [] => 0
  | v :: vs => vs.foldl min v

/-- `max_projected_y`: fold of `f32::max` seeded with `−∞`. -/
def max_projected_y (vp : ViewParams) : ℝ :=
  match cube_corners.map
      (fun p => (project (rotate_pt_all p vp.rz vp.ry vp.rx) vp.size vp.origin).2) with
  | [] => 0
  | v :: vs => vs.foldl max v

/-- `f32::clamp(x, lo, hi)`: panics when `lo > hi` (modelled as `none`). -/
def clampF (x lo hi : ℝ) : Option ℝ :=
  if lo ≤ hi then some (min (max x lo) hi) else none

/-- `fit_vertically` from `src/render/layout.rs`, with the `f32::clamp`
panic surfaced as `none`.  On success it returns the two view parameter sets
after the (possibly zero) vertical shift. -/
def fit_vertically (bounds : Rect) (l r : ViewParams) :
    Option (ViewParams × ViewParams) :=
  let min_all := min (min_projected_y l) (min_projected_y r)
  let max_all := max (max_projected_y l) (max_projected_y r)
  let center_all := 0.5 * (min_all + max_all)
  let desired_center := bounds.y + bounds.height * 0.48
  let dy0 := desired_center - center_all
  let top_margin := bounds.y + 8
  let bottom_margin := bounds.y + bounds.height - 8
  match clampF dy0 (top_margin - min_all) (bottom_margin - max_all) with
  | none => none
  | some dy =>
    if 0.01 < |dy| then
      some ({ l with origin := (l.origin.1, l.origin.2 + dy) },
            { r with origin := (r.origin.1, r.origin.2 + dy) })
    else
      some (l, r)

/-- A concrete view: identity orientation, origin `(0,0)`, scale 1. -/
def vp_test : ViewParams := ⟨0, 0, 0, (0, 0), 1⟩

/-- A concrete viewport 100 wide and 10 tall. -/
def rect_test : Rect := ⟨0, 0, 100, 10⟩

end

lemma applyToken_valid (c : Cube) (t : String) (h : validToken t = true) :
    apply_token c t = .ok (tokenStep c t) := by
  simp only [validToken, tokenAlphabet, decide_eq_true_eq, List.mem_cons,
    List.mem_singleton, List.not_mem_nil, or_false] at h
  rcases h with rfl | rfl | rfl | rfl | rfl | rfl | rfl | rfl | rfl | rfl | rfl
    | rfl | rfl | rfl | rfl | rfl | rfl | rfl <;> rfl

lemma applyToken_invalid (c : Cube) (t : String) (h : validToken t = false) :
    apply_token c t = .error ("Unknown move: " ++ t) := by
  simp only [validToken, tokenAlphabet, decide_eq_false_iff_not, List.mem_cons,
    List.mem_singleton, List.not_mem_nil, or_false, not_or] at h
  obtain ⟨n1, n2, n3, n4, n5, n6, n7, n8, n9, n10, n11, n12, n13, n14, n15, n16,
    n17, n18⟩ := h
  unfold apply_token
  rw [if_neg n1, if_neg n2, if_neg n3, if_neg n4, if_neg n5, if_neg n6,
    if_neg n7, if_neg n8, if_neg n9, if_neg n10, if_neg n11, if_neg n12,
    if_neg n13, if_neg n14, if_neg n15, if_neg n16, if_neg n17, if_neg n18]

lemma applyAlgGo_spec (c : Cube) (ts : List String) :
    apply_alg_go c ts =
      ((ts.take (firstBad ts)).foldl tokenStep c,
       if h : firstBad ts < ts.length then
         some ("Unknown move: " ++ ts.get ⟨firstBad ts, h⟩)
       else none) := by
  induction ts generalizing c with
  | nil => simp [apply_alg_go, firstBad]
  | cons t ts ih =>
    by_cases hv : validToken t = true
    · rw [apply_alg_go, applyToken_valid c t hv]
      simp only [firstBad, List.findIdx_cons, hv, Bool.not_true, cond_false]
      rw [ih (tokenStep c t)]
      simp [firstBad, Nat.succ_lt_succ_iff]
    · rw [apply_alg_go, applyToken_invalid c t (by simpa using hv)]
      simp only [firstBad, List.findIdx_cons] at hv ⊢
      simp [hv]

lemma countCol_uCw (c : Cube) (x : Col) : countCol (u_cw c) x = countCol c x := by
  simp [countCol, stickers, u_cw, rot_face_cw, List.count_cons]; ring

lemma countCol_dCw (c : Cube) (x : Col) : countCol (d_cw c) x = countCol c x := by
  simp [countCol, stickers, d_cw, rot_face_cw, List.count_cons]; ring

lemma countCol_rCw (c : Cube) (x : Col) : countCol (r_cw c) x = countCol c x := by
  simp [countCol, stickers, r_cw, rot_face_cw, List.count_cons]; ring

lemma countCol_lCw (c : Cube) (x : Col) : countCol (l_cw c) x = countCol c x := by
  simp [countCol, stickers, l_cw, rot_face_cw, List.count_cons]; ring

lemma countCol_fCw (c : Cube) (x : Col) : countCol (f_cw c) x = countCol c x := by
  simp [countCol, stickers, f_cw, rot_face_cw, List.count_cons]; ring

lemma countCol_bCw (c : Cube) (x : Col) : countCol (b_cw c) x = countCol c x := by
  simp [countCol, stickers, b_cw, rot_face_cw, List.count_cons]; ring

lemma countCol_tokenStep (c : Cube) (t : String) (x : Col) :
    countCol (tokenStep c t) x = countCol c x := by
  by_cases hv : validToken t = true
  · simp only [validToken, tokenAlphabet, decide_eq_true_eq, List.mem_cons,
      List.mem_singleton, List.not_mem_nil, or_false] at hv
    rcases hv with rfl | rfl | rfl | rfl | rfl | rfl | rfl | rfl | rfl | rfl
      | rfl | rfl | rfl | rfl | rfl | rfl | rfl | rfl <;>
      simp [tokenStep, apply_token, u_ccw, u_180, d_ccw, d_180, r_ccw, r_180,
        l_ccw, l_180, f_ccw, f_180, b_ccw, b_180,
        countCol_uCw, countCol_dCw, countCol_rCw, countCol_lCw,
        countCol_fCw, countCol_bCw]
  · unfold tokenStep
    rw [applyToken_invalid c t (by simpa using hv)]

lemma countCol_applyAlgGo (c : Cube) (ts : List String) (x : Col) :
    countCol (apply_alg_go c ts).1 x = countCol c x := by
  rw [applyAlgGo_spec]
  generalize List.take (firstBad ts) ts = us
  induction us generalizing c with
  | nil => rfl
  | cons t us ih => simp only [List.foldl_cons]; rw [ih, countCol_tokenStep]

lemma ratTrunc_eval_nonneg {q : ℚ} {z : ℤ} (h0 : 0 ≤ q) (h1 : (z : ℚ) ≤ q)
    (h2 : q < z + 1) : ratTrunc q = z := by
  rw [ratTrunc, if_pos h0]
  exact Int.floor_eq_iff.2 ⟨h1, h2⟩

lemma ratTrunc_eval_neg {q : ℚ} {z : ℤ} (h0 : ¬ 0 ≤ q) (h1 : (z : ℚ) - 1 < q)
    (h2 : q ≤ z) : ratTrunc q = z := by
  rw [ratTrunc, if_neg h0]
  exact Int.ceil_eq_iff.2 ⟨h1, h2⟩

lemma roundHalfAway_eval_nonneg {x : ℚ} {z : ℤ} (h0 : 0 ≤ x)
    (h1 : (z : ℚ) ≤ x + 1/2) (h2 : x + 1/2 < z + 1) : roundHalfAway x = z := by
  rw [roundHalfAway, if_pos h0]
  exact Int.floor_eq_iff.2 ⟨h1, h2⟩

lemma roundHalfAway_eval_neg {x : ℚ} {z : ℤ} (h0 : ¬ 0 ≤ x)
    (h1 : (z : ℚ) - 1 < x - 1/2) (h2 : x - 1/2 ≤ z) : roundHalfAway x = z := by
  rw [roundHalfAway, if_neg h0]
  exact Int.ceil_eq_iff.2 ⟨h1, h2⟩

lemma fRem_bounds_nonneg (a : ℚ) (h : 0 ≤ a) :
    0 ≤ fRem a 360 ∧ fRem a 360 < 360 := by
  have hq : (0 : ℚ) ≤ a / 360 := by positivity
  rw [fRem, ratTrunc, if_pos hq]
  have h1 := Int.floor_le (a / 360)
  have h2 := Int.lt_floor_add_one (a / 360)
  constructor <;> nlinarith

lemma fRem_bounds_neg (a : ℚ) (h : a < 0) :
    -360 < fRem a 360 ∧ fRem a 360 ≤ 0 := by
  have hq : ¬ (0 : ℚ) ≤ a / 360 := by
    simp only [not_le]
    exact div_neg_of_neg_of_pos h (by norm_num)
  rw [fRem, ratTrunc, if_neg hq]
  have h1 := Int.le_ceil (a / 360)
  have h2 := Int.ceil_lt_add_one (a / 360)
  constructor <;> nlinarith

lemma rad_zero : rad 0 = 0 := by simp [rad]

lemma rad_180 : rad 180 = Real.pi := by
  rw [rad]
  ring

lemma rot_z_point_zero (p : ℝ × ℝ × ℝ) : rot_z_point p 0 = p := by
  simp [rot_z_point, rad_zero]

lemma rot_y_point_zero (p : ℝ × ℝ × ℝ) : rot_y_point p 0 = p := by
  simp [rot_y_point, rad_zero]

lemma rot_x_point_zero (p : ℝ × ℝ × ℝ) : rot_x_point p 0 = p := by
  simp [rot_x_point, rad_zero]

lemma rotate_pt_all_zero (p : ℝ × ℝ × ℝ) : rotate_pt_all p 0 0 0 = p := by
  rw [rotate_pt_all, rot_z_point_zero, rot_y_point_zero, rot_x_point_zero]

lemma rot_x_point_180 (p : ℝ × ℝ × ℝ) :
    rot_x_point p 180 = (p.1, 2 - p.2.1, 2 - p.2.2) := by
  simp [rot_x_point, rad_180]
  constructor <;> ring

lemma face_outer_area_scale (f : FaceId) (rz rx ry size : ℝ) (origin : ℝ × ℝ) :
    face_outer_area f rz rx ry size origin =
      size ^ 2 * face_outer_area f rz rx ry 1 (0, 0) := by
  simp only [face_outer_area, project, quadSignedArea]
  ring

lemma face_depth_zero_U : face_depth .U 0 0 0 = 3 := by
  simp only [face_depth, face_center, rotate_pt_all_zero, project]
  norm_num

lemma face_depth_zero_D : face_depth .D 0 0 0 = 1 := by
  simp only [face_depth, face_center, rotate_pt_all_zero, project]
  norm_num

lemma face_depth_zero_F : face_depth .F 0 0 0 = 3/2 := by
  simp only [face_depth, face_center, rotate_pt_all_zero, project]
  norm_num

lemma face_depth_zero_B : face_depth .B 0 0 0 = 5/2 := by
  simp only [face_depth, face_center, rotate_pt_all_zero, project]
  norm_num

lemma face_depth_zero_L : face_depth .L 0 0 0 = 3/2 := by
  simp only [face_depth, face_center, rotate_pt_all_zero, project]
  norm_num

lemma face_depth_zero_R : face_depth .R 0 0 0 = 5/2 := by
  simp only [face_depth, face_center, rotate_pt_all_zero, project]
  norm_num

lemma draw_order_zero :
    draw_order 0 0 0 =
      [FaceId.D, FaceId.F, FaceId.L, FaceId.R, FaceId.B, FaceId.U] := by
  simp only [draw_order, List.insertionSort]
  norm_num [List.orderedInsert, face_depth_zero_U, face_depth_zero_D,
    face_depth_zero_F, face_depth_zero_B, face_depth_zero_L,
    face_depth_zero_R]

lemma min_projected_y_test : min_projected_y vp_test = -4 := by
  simp only [min_projected_y, vp_test, cube_corners, List.map,
    rotate_pt_all_zero, project, List.foldl]
  norm_num [min_def]

lemma max_projected_y_test : max_projected_y vp_test = 0 := by
  simp only [max_projected_y, vp_test, cube_corners, List.map,
    rotate_pt_all_zero, project, List.foldl]
  norm_num [max_def]

/-- C1: for every face letter X and every cube state, the clockwise quarter
turn has order 4 (`X,X,X,X ≡ identity`); `X` then `X'` is the identity; `X2`
twice is the identity; and `X2` equals `X,X` (with `X' = X,X,X` and
`X2 = X,X` exactly as `src/cube/mod.rs` defines them). -/
theorem c1_order4_group_law (x : Cube) :
    (u_cw (u_cw (u_cw (u_cw x))) = x ∧ u_ccw (u_cw x) = x ∧ u_180 (u_180 x) = x ∧
      u_180 x = u_cw (u_cw x)) ∧
    (d_cw (d_cw (d_cw (d_cw x))) = x ∧ d_ccw (d_cw x) = x ∧ d_180 (d_180 x) = x ∧
      d_180 x = d_cw (d_cw x)) ∧
    (r_cw (r_cw (r_cw (r_cw x))) = x ∧ r_ccw (r_cw x) = x ∧ r_180 (r_180 x) = x ∧
      r_180 x = r_cw (r_cw x)) ∧
    (l_cw (l_cw (l_cw (l_cw x))) = x ∧ l_ccw (l_cw x) = x ∧ l_180 (l_180 x) = x ∧
      l_180 x = l_cw (l_cw x)) ∧
    (f_cw (f_cw (f_cw (f_cw x))) = x ∧ f_ccw (f_cw x) = x ∧ f_180 (f_180 x) = x ∧
      f_180 x = f_cw (f_cw x)) ∧
    (b_cw (b_cw (b_cw (b_cw x))) = x ∧ b_ccw (b_cw x) = x ∧ b_180 (b_180 x) = x ∧
      b_180 x = b_cw (b_cw x)) :=
  ⟨⟨rfl, rfl, rfl, rfl⟩, ⟨rfl, rfl, rfl, rfl⟩, ⟨rfl, rfl, rfl, rfl⟩,
    ⟨rfl, rfl, rfl, rfl⟩, ⟨rfl, rfl, rfl, rfl⟩, ⟨rfl, rfl, rfl, rfl⟩⟩

/-- C10: every turn of a face (quarter cw, quarter ccw, half) leaves every
sticker of the opposite face (U–D, F–B, L–R) unchanged. -/
theorem c10_opposite_face_fixed (x : Cube) :
    ((u_cw x).d = x.d ∧ (u_ccw x).d = x.d ∧ (u_180 x).d = x.d) ∧
    ((d_cw x).u = x.u ∧ (d_ccw x).u = x.u ∧ (d_180 x).u = x.u) ∧
    ((f_cw x).b = x.b ∧ (f_ccw x).b = x.b ∧ (f_180 x).b = x.b) ∧
    ((b_cw x).f = x.f ∧ (b_ccw x).f = x.f ∧ (b_180 x).f = x.f) ∧
    ((l_cw x).r = x.r ∧ (l_ccw x).r = x.r ∧ (l_180 x).r = x.r) ∧
    ((r_cw x).l = x.l ∧ (r_ccw x).l = x.l ∧ (r_180 x).l = x.l) :=
  ⟨⟨rfl, rfl, rfl⟩, ⟨rfl, rfl, rfl⟩, ⟨rfl, rfl, rfl⟩,
    ⟨rfl, rfl, rfl⟩, ⟨rfl, rfl, rfl⟩, ⟨rfl, rfl, rfl⟩⟩

/-- C2: every state reachable from the fresh cube by applying any algorithm
string (even one whose application fails partway) has exactly 4 stickers of
each of the 6 colors; and every successful `apply_token` preserves the
sticker count of every color. -/
theorem c2_sticker_conservation :
    (∀ (alg : String) (x : Col), countCol (apply_alg cubeDefault alg).1 x = 4) ∧
    (∀ (c : Cube) (t : String) (c2 : Cube), apply_token c t = .ok c2 →
      ∀ x : Col, countCol c2 x = countCol c x) := by
  constructor
  · intro alg x
    rw [apply_alg, countCol_applyAlgGo]
    cases x <;> rfl
  · intro c t c2 h x
    by_cases hv : validToken t = true
    · rw [applyToken_valid c t hv] at h
      cases h
      exact countCol_tokenStep c t x
    · rw [applyToken_invalid c t (by simpa using hv)] at h
      cases h

/-- Witness for C2 at a concrete input: `apply_token` on the fresh cube with
token `"R"` succeeds and preserves the white-sticker count. -/
theorem c2_sticker_conservation_witness :
    apply_token cubeDefault "R" = .ok (r_cw cubeDefault) ∧
      countCol (r_cw cubeDefault) Col.W = countCol cubeDefault Col.W :=
  ⟨rfl, c2_sticker_conservation.2 cubeDefault "R" (r_cw cubeDefault) rfl Col.W⟩

/-- C3: `apply_alg` processes the whitespace-separated tokens strictly left to
right; the applied state is the fold of the valid prefix before the first
invalid token (no rollback, and the failing token itself does not modify the
cube); the error names the first invalid token; it succeeds iff every token
is in the 18-token alphabet; and `"R X U"` yields the state after `R` alone
with error `"Unknown move: X"`. -/
theorem c3_fail_fast :
    (∀ (c : Cube) (alg : String),
      apply_alg c alg =
        (((split_whitespace alg).take (firstBad (split_whitespace alg))).foldl
            tokenStep c,
         if h : firstBad (split_whitespace alg) < (split_whitespace alg).length
         then some ("Unknown move: " ++
                (split_whitespace alg).get ⟨firstBad (split_whitespace alg), h⟩)
         else none)) ∧
    (∀ (c : Cube) (alg : String),
      (apply_alg c alg).2 = none ↔
        ∀ t ∈ split_whitespace alg, validToken t = true) ∧
    (∀ c : Cube, apply_alg c "R X U" = (r_cw c, some "Unknown move: X")) := by
  refine ⟨fun c alg => applyAlgGo_spec c (split_whitespace alg), fun c alg => ?_,
    fun c => rfl⟩
  rw [apply_alg, applyAlgGo_spec]
  constructor
  · intro h t ht
    by_contra hbad
    simp only [dite_eq_right_iff] at h
    have hlt : firstBad (split_whitespace alg) < (split_whitespace alg).length := by
      apply List.findIdx_lt_length.2
      exact ⟨t, ht, by simp [hbad]⟩
    exact Option.some_ne_none _ (h hlt)
  · intro hall
    have hlen : firstBad (split_whitespace alg) = (split_whitespace alg).length :=
      List.findIdx_eq_length.2 (fun t ht => by simp [hall t ht])
    simp [hlen]

/-- C4 counterexample: for the U turn, no donor→recipient transfer reverses
its strip at all, so the claim that exactly one of the four transfers of
every face turn reverses is false at face U. -/
theorem c4_counterexample :
    ¬ ∃ t ∈ uXfers, ∀ c : Cube, t.recip (u_cw c) = Prod.swap (t.donor c) := by
  rintro ⟨t, ht, hrev⟩
  simp only [uXfers, List.mem_cons, List.not_mem_nil, or_false] at ht
  rcases ht with rfl | rfl | rfl | rfl <;> exact absurd (hrev probeCube) (by decide)

/-- C4 amended: each `x_cw` performs four boundary-strip transfers; for the U
and D turns all four preserve strip order, while for each of the R, L, F and
B turns exactly two transfers reverse the strip and the other two preserve
it — as flagged in `uXfers` … `bXfers`, which transcribe `src/cube/mod.rs`. -/
theorem c4_transfer_reversals :
    (uXfers.Forall (XferOk u_cw) ∧ (uXfers.filter (fun t => t.rev)).length = 0) ∧
    (dXfers.Forall (XferOk d_cw) ∧ (dXfers.filter (fun t => t.rev)).length = 0) ∧
    (rXfers.Forall (XferOk r_cw) ∧ (rXfers.filter (fun t => t.rev)).length = 2) ∧
    (lXfers.Forall (XferOk l_cw) ∧ (lXfers.filter (fun t => t.rev)).length = 2) ∧
    (fXfers.Forall (XferOk f_cw) ∧ (fXfers.filter (fun t => t.rev)).length = 2) ∧
    (bXfers.Forall (XferOk b_cw) ∧ (bXfers.filter (fun t => t.rev)).length = 2) := by
  refine ⟨⟨?_, rfl⟩, ⟨?_, rfl⟩, ⟨?_, rfl⟩, ⟨?_, rfl⟩, ⟨?_, rfl⟩, ⟨?_, rfl⟩⟩ <;>
    exact ⟨fun c => rfl, fun c => rfl, fun c => rfl, fun c => rfl⟩

/-- C7 amended: `set_deg` lands in `[0, 360)` with snap disabled for every
input, and with snap-to-90 enabled for every input above −765°; the spec's
concrete examples hold (`set_deg (-30) = 330`, and with snap `100 ↦ 90`,
`140 ↦ 180`).  (At snap-enabled inputs ≤ −765 the result is negative, see
the counterexample.) -/
theorem c7_set_deg_normalization (v : ℚ) (snap : Bool)
    (h : snap = true → -765 < v) :
    (0 ≤ set_deg v snap ∧ set_deg v snap < 360) ∧
    set_deg (-30) false = 330 ∧ set_deg 100 true = 90 ∧
    set_deg 140 true = 180 := by
  refine ⟨?_, ?_, ?_, ?_⟩
  · cases snap with
    | false =>
      rw [set_deg]
      rcases le_or_lt 0 v with hv | hv
      · obtain ⟨b1, b2⟩ := fRem_bounds_nonneg v hv
        simp only [Bool.false_eq_true, if_false]
        split_ifs with hd <;> constructor <;> linarith
      · obtain ⟨b1, b2⟩ := fRem_bounds_neg v hv
        simp only [Bool.false_eq_true, if_false]
        split_ifs with hd <;> constructor <;> linarith
    | true =>
      have hv : -765 < v := h rfl
      rw [set_deg]
      simp only [if_true]
      set z : ℤ := roundHalfAway (v / 90) with hz
      have hz8 : -8 ≤ z := by
        rw [hz, roundHalfAway]
        split_ifs with h0
        · have : (0 : ℤ) ≤ ⌊v / 90 + 1/2⌋ := by
            apply Int.floor_nonneg.2; linarith
          omega
        · have hgt : (-9 : ℚ) < v / 90 - 1/2 := by
            rw [lt_sub_iff_add_lt]
            rw [lt_div_iff₀ (by norm_num : (0:ℚ) < 90)]
            linarith
          have := Int.le_ceil (v / 90 - 1/2)
          have h9 : (-9 : ℤ) < ⌈v / 90 - 1/2⌉ := by
            by_contra hc
            push_neg at hc
            have : (⌈v / 90 - 1/2⌉ : ℚ) ≤ -9 := by exact_mod_cast hc
            linarith
          omega
      rcases lt_or_le ((z : ℚ) * 90) 0 with hr | hr
      · rw [if_pos hr]
        have hzq : (-720 : ℚ) ≤ (z : ℚ) * 90 := by
          have : (-8 : ℚ) ≤ (z : ℚ) := by exact_mod_cast hz8
          nlinarith
        split_ifs with hd <;> constructor <;> linarith
      · rw [if_neg (not_lt.2 hr)]
        obtain ⟨b1, b2⟩ := fRem_bounds_nonneg ((z : ℚ) * 90) hr
        split_ifs with hd <;> constructor <;> linarith
  · have ht : ratTrunc ((-30 : ℚ) / 360) = 0 :=
      ratTrunc_eval_neg (by norm_num) (by norm_num) (by norm_num)
    simp only [set_deg, fRem, ht]
    norm_num
  · have hr : roundHalfAway ((100 : ℚ) / 90) = 1 :=
      roundHalfAway_eval_nonneg (by norm_num) (by norm_num) (by norm_num)
    have ht : ratTrunc ((1 : ℚ) / 4) = 0 :=
      ratTrunc_eval_nonneg (by norm_num) (by norm_num) (by norm_num)
    simp only [set_deg, fRem, hr]
    norm_num [ht]
  · have hr : roundHalfAway ((140 : ℚ) / 90) = 2 :=
      roundHalfAway_eval_nonneg (by norm_num) (by norm_num) (by norm_num)
    have ht : ratTrunc ((1 : ℚ) / 2) = 0 :=
      ratTrunc_eval_nonneg (by norm_num) (by norm_num) (by norm_num)
    simp only [set_deg, fRem, hr]
    norm_num [ht]

/-- Witness for C7 at a concrete input (v = 100, snap enabled). -/
theorem c7_set_deg_normalization_witness :
    (0 ≤ set_deg 100 true ∧ set_deg 100 true < 360) ∧
    set_deg (-30) false = 330 ∧ set_deg 100 true = 90 ∧
    set_deg 140 true = 180 :=
  c7_set_deg_normalization 100 true (fun _ => by norm_num)

/-- C7 counterexample: with snap enabled, `set_deg (-765)` returns −90, which
is not in `[0, 360)` — the nearest multiple of 90 to −765 is −810 (ties round
away from zero), and the two `+ 360` corrections cannot lift −810 into range. -/
theorem c7_counterexample :
    set_deg (-765) true = -90 ∧ ¬ (0 ≤ set_deg (-765) true) := by
  have hr : roundHalfAway ((-765 : ℚ) / 90) = -9 :=
    roundHalfAway_eval_neg (by norm_num) (by norm_num) (by norm_num)
  constructor
  · simp only [set_deg, fRem, hr]
    norm_num
  · simp only [set_deg, fRem, hr]
    norm_num

/-- C9: `rotate_pt_all` is exactly the spec's composition — translate to
origin-centered coordinates, standard Z then Y then X rotation, translate
back — and each rotation site (visibility, depth key, layout bounding) uses
this same composed transform. -/
theorem c9_rotation_composition :
    (∀ (p : ℝ × ℝ × ℝ) (rz ry rx : ℝ),
      rotate_pt_all p rz ry rx = spec_rotate p rz ry rx) ∧
    (∀ (f : FaceId) (rz rx ry size : ℝ) (origin : ℝ × ℝ),
      face_outer_area f rz rx ry size origin =
        (let q := face_outer f
         let pr := fun p => project (spec_rotate p rz ry rx) size origin
         quadSignedArea (pr q.1) (pr q.2.1) (pr q.2.2.1) (pr q.2.2.2))) ∧
    (∀ (f : FaceId) (rz rx ry : ℝ),
      face_depth f rz rx ry =
        -(project (spec_rotate (face_center f) rz ry rx) 1 (0, 0)).2) := by
  have key : ∀ (p : ℝ × ℝ × ℝ) (rz ry rx : ℝ),
      rotate_pt_all p rz ry rx = spec_rotate p rz ry rx := by
    intro p rz ry rx
    simp only [rotate_pt_all, rot_z_point, rot_y_point, rot_x_point,
      spec_rotate, spec_rot_z, spec_rot_y, spec_rot_x]
    refine Prod.ext ?_ (Prod.ext ?_ ?_) <;> dsimp only <;> ring
  refine ⟨key, fun f rz rx ry size origin => ?_, fun f rz rx ry => ?_⟩
  · simp only [face_outer_area, key]
  · simp only [face_depth, key]

/-- C8: visibility depends only on the orientation angles — for any positive
scale and any origin the projected signed area has the same sign as the
unit-scale, zero-origin area the code tests — and concretely: at
`(Rz,Rx,Ry) = (0,0,0)` face F is visible and face B is not, while at
`Rx = 180` face F is not visible and face B is. -/
theorem c8_visibility (s : ℝ) (hs : 0 < s) :
    (∀ (f : FaceId) (rz rx ry : ℝ) (origin : ℝ × ℝ),
      (face_outer_area f rz rx ry s origin < 0 ↔ face_visible f rz rx ry)) ∧
    face_visible .F 0 0 0 ∧ ¬ face_visible .B 0 0 0 ∧
    ¬ face_visible .F 0 180 0 ∧ face_visible .B 0 180 0 := by
  refine ⟨fun f rz rx ry origin => ?_, ?_, ?_, ?_, ?_⟩
  · rw [face_outer_area_scale, face_visible]
    constructor
    · intro h
      by_contra hc
      push_neg at hc
      nlinarith
    · intro h
      have h2 : (0 : ℝ) < s ^ 2 := by positivity
      exact mul_neg_of_pos_of_neg h2 h
  · simp only [face_visible, face_outer_area, face_outer, rotate_pt_all_zero,
      project, quadSignedArea]
    norm_num
  · simp only [face_visible, face_outer_area, face_outer, rotate_pt_all_zero,
      project, quadSignedArea]
    norm_num
  · simp only [face_visible, face_outer_area, face_outer, rotate_pt_all,
      rot_z_point_zero, rot_y_point_zero, rot_x_point_180,
      project, quadSignedArea]
    norm_num
  · simp only [face_visible, face_outer_area, face_outer, rotate_pt_all,
      rot_z_point_zero, rot_y_point_zero, rot_x_point_180,
      project, quadSignedArea]
    norm_num

/-- Witness for C8 at the concrete scale 2. -/
theorem c8_visibility_witness :
    (0 : ℝ) < 2 ∧
    (face_visible .F 0 0 0 ∧ ¬ face_visible .B 0 0 0 ∧
      ¬ face_visible .F 0 180 0 ∧ face_visible .B 0 180 0) :=
  ⟨by norm_num, (c8_visibility 2 (by norm_num)).2⟩

/-- C5 counterexample: at angles `(0,0,0)` faces B and R have equal depth
keys, B precedes R in `FaceId` enumeration order, yet the code draws R before
B — the stable sort starts from the array `[U, R, F, D, L, B]`, so ties keep
that array's order, not `FaceId` enumeration order. -/
theorem c5_counterexample :
    face_depth FaceId.B 0 0 0 = face_depth FaceId.R 0 0 0 ∧
    enumIdx FaceId.B < enumIdx FaceId.R ∧
    (draw_order 0 0 0).indexOf FaceId.R < (draw_order 0 0 0).indexOf FaceId.B := by
  refine ⟨by rw [face_depth_zero_B, face_depth_zero_R], by decide, ?_⟩
  rw [draw_order_zero]
  decide

/-- C5 amended: the depth key is the negated projected Y of the rotated face
center (unit scale, zero origin); the faces are drawn in ascending depth-key
order by a stable sort; but equal keys keep the order of the pre-sort array
`[U, R, F, D, L, B]`, not `FaceId` enumeration order — at angles `(0,0,0)`
the draw order is `[D, F, L, R, B, U]` (R before the tied B). -/
theorem c5_depth_order :
    (∀ (f : FaceId) (rz rx ry : ℝ),
      face_depth f rz rx ry =
        -(project (rotate_pt_all (face_center f) rz ry rx) 1 (0, 0)).2) ∧
    (∀ rz rx ry : ℝ,
      (draw_order rz rx ry).Perm
        [FaceId.U, FaceId.R, FaceId.F, FaceId.D, FaceId.L, FaceId.B] ∧
      (draw_order rz rx ry).Sorted
        (fun a b => face_depth a rz rx ry ≤ face_depth b rz rx ry)) ∧
    draw_order 0 0 0 =
      [FaceId.D, FaceId.F, FaceId.L, FaceId.R, FaceId.B, FaceId.U] := by
  refine ⟨fun f rz rx ry => rfl, fun rz rx ry => ?_, draw_order_zero⟩
  constructor
  · exact List.perm_insertionSort _ _
  · haveI : IsTotal FaceId (fun a b => face_depth a rz rx ry ≤ face_depth b rz rx ry) :=
      ⟨fun a b => le_total _ _⟩
    haveI : IsTrans FaceId (fun a b => face_depth a rz rx ry ≤ face_depth b rz rx ry) :=
      ⟨fun a b c hab hbc => le_trans hab hbc⟩
    exact List.sorted_insertionSort _ _

/-- C6: at a viewport only 10 pixels tall the combined projected box (height
4 at unit scale) cannot fit inside the two 8-pixel margins, the clamp's lower
bound (12) exceeds its upper bound (2), and `f32::clamp` panics — modelled
here as `fit_vertically` returning `none` instead of a least-violating
placement. -/
theorem c6_fit_vertically_panics :
    fit_vertically rect_test vp_test vp_test = none := by
  simp only [fit_vertically, min_projected_y_test, max_projected_y_test,
    clampF, rect_test]
  norm_num

end IcedCube
